import Mathlib

/-!
Shallow embedding of the "Mimoza" backend API (src/main.py, src/schemas.py).

Conventions of the embedding:
* Python floats are modelled as rationals (`Rat`); every claim about the
  numeric fields only concerns sign comparisons and equality, on which the
  two agree for the inputs involved.
* A MongoDB handle that is `None` is modelled by `Option DBState` being
  `none`; the handlers' `if db is None` guards match on it.
* Fallible handlers return `Except HErr`; handlers that can also change the
  store return the response paired with the post-state.
* `database.py` (the persistence gateway `create_document` / `get_documents`)
  is not part of the sources; its model is written from the design document
  and marked `Modelled from the spec:` in its doc comment.
-/

namespace Mimoza

/-- The uniform error signals of the API surface: HTTP 500 "Database not
configured" (service unavailable), 400 (bad request), 404 (not found),
422 (body validation failure) and an uncaught-exception 500. -/
inductive HErr where
  | serviceUnavailable
  | badRequest
  | notFound
  | validationError
  | internalError
deriving DecidableEq

/-- The eight admissible `category` values of `schemas.Product`. -/
def categories : List String :=
  ["sobne biljke", "trajnica", "grmovi", "zivica", "povrtne sadnice",
   "zacinsko bilje", "sezonsko cvijece", "posude i aranzmani"]

/-- The three admissible `availability` values of `schemas.Product`. -/
def availabilities : List String :=
  ["na stanju", "sezonski", "rasprodano"]

/-- A fully validated product, mirroring `schemas.Product` after pydantic
validation succeeded. -/
structure Product where
  name : String
  category : String
  price : Rat
  availability : String
  sku : Option String
  care : Option String
  image : Option String
deriving DecidableEq

/-- A stored product document: a validated product plus the store-generated
`_id`.  Creation paths always write all seven field keys (absent optional
values are stored as null, modelled by `none`). -/
structure Doc where
  id : String
  name : String
  category : String
  price : Rat
  availability : String
  sku : Option String
  care : Option String
  image : Option String
deriving DecidableEq

/-- `product.model_dump()` inserted under a store-generated id. -/
def toDoc (id : String) (p : Product) : Doc :=
  { id := id, name := p.name, category := p.category, price := p.price,
    availability := p.availability, sku := p.sku, care := p.care,
    image := p.image }

/-- A gallery document (only the fields the handlers touch). -/
structure GalleryDoc where
  id : Option String
  title : Option String
  alt : Option String
deriving DecidableEq

/-- A post document (only the fields the handlers touch). -/
structure PostDoc where
  id : String
  published : Bool
  title : String
deriving DecidableEq

/-- The connected database: one list per collection the claims exercise. -/
structure DBState where
  products : List Doc
  gallery : List GalleryDoc
  posts : List PostDoc
deriving DecidableEq

/-- Hexadecimal digit test, as `bson.ObjectId.is_valid` accepts both cases. -/
def isHexChar (c : Char) : Bool :=
  c.isDigit || ('a' ≤ c && c ≤ 'f') || ('A' ≤ c && c ≤ 'F')

/-- `bson.ObjectId.is_valid` on a string argument: exactly 24 hex digits. -/
def ObjectId_is_valid (s : String) : Bool :=
  s.length == 24 && s.data.all isHexChar

/-- Boolean list-prefix test on characters (used by the URL model and by the
regex-fragment proofs). -/
def isPrefixB : List Char → List Char → Bool
  | [], _ => true
  | _ :: _, [] => false
  | a :: as, b :: bs => a == b && isPrefixB as bs

/-- Boolean contiguous-sublist test on characters. -/
def isSubB : List Char → List Char → Bool
  | l, [] => l.isEmpty
  | l, b :: t => isPrefixB l (b :: t) || isSubB l t

/-- Conservative model of pydantic's `HttpUrl` validation: an http(s) scheme
followed by a nonempty remainder.  No claim depends on finer URL syntax. -/
def isHttpUrl (s : String) : Bool :=
  (isPrefixB "http://".data s.data && s.length > 7) ||
  (isPrefixB "https://".data s.data && s.length > 8)

/-- Conservative model of pydantic's `EmailStr` validation: one `@` with
nonempty local part and domain.  No claim depends on finer email syntax. -/
def isEmail (s : String) : Bool :=
  match s.data.span (· ≠ '@') with
  | (l, '@' :: r) => !l.isEmpty && !r.isEmpty && r.all (· ≠ '@')
  | _ => false

/-- Conservative model of pydantic's `date` parsing: `YYYY-MM-DD` digits.
No claim depends on calendar arithmetic. -/
def isIsoDate (s : String) : Bool :=
  match s.data with
  | [y1, y2, y3, y4, '-', m1, m2, '-', d1, d2] =>
      [y1, y2, y3, y4, m1, m2, d1, d2].all Char.isDigit
  | _ => false

/-- Python truthiness of an optional string: `None` and `""` are falsy. -/
def pyTruthy : Option String → Bool
  | none => false
  | some s => !s.isEmpty

/-- Python's `a or b` on optional strings: yields `b` whenever `a` is falsy. -/
def pyOr (a b : Option String) : Option String :=
  if pyTruthy a then a else b

/-- Raw product input as received by pydantic: every field may be absent
(JSON-absent and JSON-null are both validation failures for the required
fields and are modelled together as `none`). -/
structure RawProduct where
  name : Option String
  category : Option String
  price : Option Rat
  availability : Option String
  sku : Option String
  care : Option String
  image : Option String
deriving DecidableEq

/-- Validation of `schemas.Product`: `name`, `category`, `price` required;
`category` by exact membership in the eight-value set; `price ≥ 0`;
`availability` defaults to "na stanju" and must be one of three values;
`image`, when present, must be a well-formed http(s) URL. -/
def validateProduct (r : RawProduct) : Option Product :=
  match r.name, r.category, r.price with
  | some n, some c, some p =>
    if c ∈ categories ∧ 0 ≤ p then
      let av := r.availability.getD "na stanju"
      if av ∈ availabilities then
        match r.image with
        | some u => if isHttpUrl u then
            some ⟨n, c, p, av, r.sku, r.care, some u⟩ else none
        | none => some ⟨n, c, p, av, r.sku, r.care, none⟩
      else none
    else none
  | _, _, _ => none

/-- The serialized product a read returns (`ProductOut`), id as a string. -/
structure ProductOut where
  id : String
  name : String
  category : String
  price : Rat
  availability : String
  sku : Option String
  care : Option String
  image : Option String
deriving DecidableEq

/-- The field projection of `ProductOut.from_mongo`: the image value is run
through Python truthiness (`str(doc.get("image")) if doc.get("image") else
None`), so an empty string becomes `None`. -/
def outOf (d : Doc) : ProductOut :=
  { id := d.id, name := d.name, category := d.category, price := d.price,
    availability := d.availability, sku := d.sku, care := d.care,
    image := match d.image with
             | some s => if s.isEmpty then none else some s
             | none => none }

/-- `ProductOut.from_mongo`: the `ObjectIdStr` field validator re-checks the
id; a document with an invalid `_id` raises (propagating as an uncaught
500). -/
def from_mongo (d : Doc) : Option ProductOut :=
  if ObjectId_is_valid d.id then some (outOf d) else none

/-! ### The `q` filter: MongoDB `$regex` with option `i`

`list_products` passes `q` to the store unescaped, as the value of a
`$regex` operator on `name` with option `i`.  The store applies it as a
PCRE pattern, matched case-insensitively anywhere in the name.  We model
the PCRE fragment the claims exercise: literal characters and the `.`
metacharacter (any character except a newline).  Patterns using other
metacharacters are outside the modelled fragment; the theorems that need
the concrete semantics restrict to the fragment, and the listing-shape
theorems quantify over an arbitrary matcher instead. -/

/-- One token of the modelled PCRE fragment. -/
inductive RTok where
  | dot
  | lit (c : Char)
deriving DecidableEq

/-- Tokenisation of the fragment: `.` is the any-character metacharacter,
everything else a literal. -/
def rtok (c : Char) : RTok :=
  if c = '.' then RTok.dot else RTok.lit c

/-- The PCRE metacharacters; a pattern avoiding all of them is matched as a
plain literal string. -/
def regexMetaChars : List Char :=
  ['.', '^', '$', '*', '+', '?', '(', ')', '[', ']',
   '\x7b', '\x7d', '|', '\\']

/-- Anchored match of a token list at the start of the text, caseless
(PCRE option `i`, modelled by `Char.toLower` folding); `.` does not match
a newline. -/
def matchHere : List RTok → List Char → Bool
  | [], _ => true
  | _ :: _, [] => false
  | RTok.dot :: ts, c :: cs => !(c == '\n') && matchHere ts cs
  | RTok.lit a :: ts, c :: cs => (c.toLower == a.toLower) && matchHere ts cs

/-- Unanchored search: the pattern may match at any position. -/
def rsearch (ts : List RTok) : List Char → Bool
  | [] => matchHere ts []
  | c :: cs => matchHere ts (c :: cs) || rsearch ts cs

/-- `{"$regex": pat, "$options": "i"}` applied to `s`, on the modelled
fragment. -/
def mongoRegexMatchI (pat s : String) : Bool :=
  rsearch (pat.data.map rtok) s.data

/-- Spec-side definition, following the specification's words for the `q`
filter: the name contains the query as a substring, compared
case-insensitively. -/
def substrCI (pat s : String) : Bool :=
  isSubB (pat.data.map Char.toLower) (s.data.map Char.toLower)

/-! ### Product listing (`GET /api/products`) -/

/-- The `category` constraint of the filter document: contributed only when
the parameter is truthy (`if category:`), and then an exact match. -/
def catMatch (category : Option String) (d : Doc) : Bool :=
  match category with
  | none => true
  | some s => if s.isEmpty then true else d.category == s

/-- The `availability` constraint, same shape as `catMatch`. -/
def availMatch (availability : Option String) (d : Doc) : Bool :=
  match availability with
  | none => true
  | some s => if s.isEmpty then true else d.availability == s

/-- The `q` constraint: when truthy, the store's regex matcher `qsem`
applied to the name. -/
def qMatch (qsem : String → String → Bool) (q : Option String) (d : Doc) : Bool :=
  match q with
  | none => true
  | some s => if s.isEmpty then true else qsem s d.name

/-- The filter document built by `list_products`: a multi-key Mongo query is
the conjunction of its per-key constraints. -/
def listPred (qsem : String → String → Bool) (category availability q : Option String)
    (d : Doc) : Bool :=
  catMatch category d && availMatch availability d && qMatch qsem q d

/-- `name` ascending, the sort `list_products` requests from the store. -/
def docLe (a b : Doc) : Prop := a.name ≤ b.name

instance : DecidableRel docLe := fun a b =>
  inferInstanceAs (Decidable (a.name ≤ b.name))

instance : IsTotal Doc docLe := ⟨fun a b => le_total a.name b.name⟩

instance : IsTrans Doc docLe := ⟨fun _ _ _ h h' => le_trans h h'⟩

/-- The list comprehension `[ProductOut.from_mongo(d) for d in docs]`:
all conversions must succeed, else the request raises. -/
def mapFromMongo : List Doc → Option (List ProductOut)
  | [] => some []
  | d :: ds =>
    match from_mongo d, mapFromMongo ds with
    | some o, some os => some (o :: os)
    | _, _ => none

/-- `list_products`, parametric in the store's regex matcher `qsem`: guard
on the handle, filter, sort by name ascending, serialize. -/
def listProductsGen (qsem : String → String → Bool) (db : Option DBState)
    (category availability q : Option String) : Except HErr (List ProductOut) :=
  match db with
  | none => Except.error HErr.serviceUnavailable
  | some s =>
    match mapFromMongo ((s.products.filter (listPred qsem category availability q)).insertionSort docLe) with
    | some outs => Except.ok outs
    | none => Except.error HErr.internalError

/-- The handler `list_products` with the store's actual matcher (on the
modelled fragment). -/
def list_products (db : Option DBState) (category availability q : Option String) :
    Except HErr (List ProductOut) :=
  listProductsGen mongoRegexMatchI db category availability q

/-! ### Persistence gateway and the write handlers -/

/-- Modelled from the spec: `create_document` lives in `database.py`, which
is not among the sources (only its callers are).  Per the design document
the gateway creates a document in the named collection and returns the new
store-generated id as a string; an unavailable persistence layer is a
`NotConfiguredError`, surfaced as service-unavailable with nothing
persisted.  `nid` stands for the store-generated id. -/
def create_document (db : Option DBState) (nid : String) (p : Product) :
    Except HErr String × Option DBState :=
  match db with
  | none => (Except.error HErr.serviceUnavailable, none)
  | some s =>
    (Except.ok nid, some { s with products := s.products ++ [toDoc nid p] })

/-- Handler `create_product`: delegates directly to the gateway (no guard of
its own). -/
def create_product (db : Option DBState) (nid : String) (p : Product) :
    Except HErr String × Option DBState :=
  create_document db nid p

/-- The `POST /api/products` endpoint: the framework validates the body
before the handler runs; an invalid body never reaches the store. -/
def createProductEndpoint (db : Option DBState) (nid : String) (r : RawProduct) :
    Except HErr String × Option DBState :=
  match validateProduct r with
  | none => (Except.error HErr.validationError, db)
  | some p => create_product db nid p

/-- `find_one_and_update` with `$set product.model_dump()`: all seven fields
replaced, `_id` kept. -/
def setFields (p : Product) (d : Doc) : Doc :=
  { d with name := p.name, category := p.category, price := p.price,
           availability := p.availability, sku := p.sku, care := p.care,
           image := p.image }

/-- Handler `update_product`: guard on the handle, reject a malformed id
before any store call, update the first matching document and return it. -/
def update_product (db : Option DBState) (pid : String) (p : Product) :
    Except HErr ProductOut × Option DBState :=
  match db with
  | none => (Except.error HErr.serviceUnavailable, none)
  | some s =>
    if ObjectId_is_valid pid then
      match s.products.find? (fun d => d.id == pid) with
      | none => (Except.error HErr.notFound, some s)
      | some d =>
        let d' := setFields p d
        let s' := { s with products := s.products.map (fun x => if x.id == pid then setFields p x else x) }
        match from_mongo d' with
        | some o => (Except.ok o, some s')
        | none => (Except.error HErr.internalError, some s')
    else (Except.error HErr.badRequest, some s)

/-- Handler `delete_product`: guard on the handle, reject a malformed id
before any store call, `delete_one` removes the first matching document. -/
def delete_product (db : Option DBState) (pid : String) :
    Except HErr Unit × Option DBState :=
  match db with
  | none => (Except.error HErr.serviceUnavailable, none)
  | some s =>
    if ObjectId_is_valid pid then
      match s.products.find? (fun d => d.id == pid) with
      | none => (Except.error HErr.notFound, some s)
      | some _ =>
        (Except.ok (), some { s with products := s.products.eraseP (fun d => d.id == pid) })
    else (Except.error HErr.badRequest, some s)

/-! ### CSV import -/

/-- One data row as produced by `csv.DictReader`: an association from header
names to cell strings.  An absent column yields no binding (`row.get` is
`None`); a present-but-empty cell yields `""`. -/
def Row : Type := List (String × String)

/-- `row.get(k)`. -/
def rowGet (r : Row) (k : String) : Option String :=
  (List.find? (fun kv => kv.1 == k) r).map (fun kv => kv.2)

/-- Value of a digit list. -/
def digitsVal (cs : List Char) : Nat :=
  cs.foldl (fun a c => a * 10 + (c.toNat - 48)) 0

/-- Models Python `float()` on plain signed decimal literals (digits with an
optional single decimal point); the exponent, infinity and whitespace forms
are outside every claim.  A string it cannot parse raises, which skips the
CSV row. -/
def parseDecCore (cs : List Char) : Option Rat :=
  match cs.span (· ≠ '.') with
  | (intPart, []) =>
    if !intPart.isEmpty && intPart.all Char.isDigit then
      some (digitsVal intPart) else none
  | (intPart, _ :: frac) =>
    if (intPart.isEmpty && frac.isEmpty) then none
    else if intPart.all Char.isDigit && frac.all Char.isDigit && frac.all (· ≠ '.') then
      some ((digitsVal intPart : Rat) + (digitsVal frac : Rat) / ((10 : Rat) ^ frac.length))
    else none

/-- Signed variant of `parseDecCore`. -/
def parseDec (s : String) : Option Rat :=
  match s.data with
  | '-' :: rest => (parseDecCore rest).map (fun q => -q)
  | '+' :: rest => parseDecCore rest
  | cs => parseDecCore cs

/-- One CSV row to a validated product, mirroring the `ProductSchema(...)`
call of `import_products_csv`: alias-tolerant lookup through Python `or`
chains, `price` falling back to `0`, `availability` falling back to
`"na stanju"`, then schema validation; `none` when the row raises or fails
validation (the row is then skipped). -/
def rowToProduct? (r : Row) : Option Product :=
  let price? : Option Rat :=
    match pyOr (rowGet r "price") (rowGet r "cijena") with
    | none => some 0
    | some s => if s.isEmpty then some 0 else parseDec s
  match price? with
  | none => none
  | some pr =>
    let av : String :=
      match pyOr (rowGet r "availability") (rowGet r "dostupnost") with
      | none => "na stanju"
      | some s => if s.isEmpty then "na stanju" else s
    validateProduct
      { name := pyOr (rowGet r "name") (rowGet r "naziv"),
        category := pyOr (rowGet r "category") (rowGet r "kategorija"),
        price := some pr,
        availability := some av,
        sku := rowGet r "sku",
        care := pyOr (rowGet r "care") (rowGet r "njega"),
        image := pyOr (rowGet r "image") (rowGet r "slika") }

/-- The import loop: each row that converts and validates is inserted at
once (the counter also indexes the store-generated ids `ids`); a failing row
is skipped and the loop continues. -/
def importLoop (ids : Nat → String) : List Row → List Doc → Nat → Nat × List Doc
  | [], docs, inserted => (inserted, docs)
  | r :: rs, docs, inserted =>
    match rowToProduct? r with
    | some p => importLoop ids rs (docs ++ [toDoc (ids inserted) p]) (inserted + 1)
    | none => importLoop ids rs docs inserted

/-- Handler `import_products_csv` on the parsed data rows: guard on the
handle, then the import loop; the response carries the aggregate inserted
count. -/
def import_products_csv (ids : Nat → String) (db : Option DBState) (rows : List Row) :
    Except HErr Nat × Option DBState :=
  match db with
  | none => (Except.error HErr.serviceUnavailable, none)
  | some s =>
    let res := importLoop ids rows s.products 0
    (Except.ok res.1, some { s with products := res.2 })

/-! ### CSV export -/

/-- `str.replace("\n", " ")` for the single-character pattern: each newline
character becomes one space. -/
def collapseNl (s : String) : String :=
  String.mk (s.data.map (fun c => if c = '\n' then ' ' else c))

/-- Models Python `str` applied to the stored numeric `price` value.  The
claims never constrain the digits of this rendering, only its position in
the row. -/
def showPrice (q : Rat) : String := toString q

/-- `csv.writer` field quoting (QUOTE_MINIMAL): a field containing the
delimiter, the quote character or a CR/LF is wrapped in double quotes with
inner quotes doubled. -/
def csvQuote (s : String) : String :=
  if s.data.any (fun c => c = ',' || c = '"' || c = '\r' || c = '\n') then
    "\"" ++ String.mk (s.data.flatMap (fun c => if c = '"' then ['"', '"'] else [c])) ++ "\""
  else s

/-- One `writer.writerow` record: comma-joined quoted cells, CRLF-terminated
(the `csv` module's default line terminator). -/
def csvRow (cells : List String) : String :=
  String.intercalate "," (cells.map csvQuote) ++ "\r\n"

/-- The cells `export_products_csv` writes for one document: `d.get(k, "")`
with `None` rendered as the empty string by the writer, and the `care`
value newline-collapsed. -/
def exportCells (d : Doc) : List String :=
  [d.name, d.category, showPrice d.price, d.availability,
   d.sku.getD "", collapseNl (d.care.getD ""), d.image.getD ""]

/-- Handler `export_products_csv`: guard on the handle, write the header
row, then one record per stored product in store iteration order. -/
def export_products_csv (db : Option DBState) : Except HErr String :=
  match db with
  | none => Except.error HErr.serviceUnavailable
  | some s =>
    let out := csvRow ["name", "category", "price", "availability", "sku", "care", "image"]
    Except.ok (s.products.foldl (fun o d => o ++ csvRow (exportCells d)) out)

/-! ### Gallery and posts -/

/-- Normalized gallery record: id as string, `alt` defaulted. -/
structure GalleryOut where
  id : Option String
  alt : String
deriving DecidableEq

/-- Modelled from the spec: `get_documents` lives in `database.py`; per the
design document it returns every document of the collection (the handler
has already guarded the handle). -/
def get_documents (s : DBState) : List GalleryDoc := s.gallery

/-- Handler `list_gallery`: guard on the handle, then normalize each
document (`setdefault("alt", d.get("title", "Fotografija"))`). -/
def list_gallery (db : Option DBState) : Except HErr (List GalleryOut) :=
  match db with
  | none => Except.error HErr.serviceUnavailable
  | some s =>
    Except.ok ((get_documents s).map (fun d =>
      { id := d.id, alt := d.alt.getD (d.title.getD "Fotografija") }))

/-- `_id` descending, the sort `list_posts` requests from the store. -/
def postGe (a b : PostDoc) : Prop := b.id ≤ a.id

instance : DecidableRel postGe := fun a b =>
  inferInstanceAs (Decidable (b.id ≤ a.id))

/-- Handler `list_posts`: guard on the handle, then the published posts,
newest id first. -/
def list_posts (db : Option DBState) : Except HErr (List PostDoc) :=
  match db with
  | none => Except.error HErr.serviceUnavailable
  | some s =>
    Except.ok ((s.posts.filter (fun p => p.published)).insertionSort postGe)

/-! ### Orders and contacts -/

/-- A validated order, mirroring `schemas.Order`. -/
structure Order where
  full_name : String
  phone : String
  email : Option String
  message : Option String
  event_date : Option String
  pickup : Bool
  delivery : Bool
  budget_eur : Option Rat
  reference_images : Option (List String)
  consent : Bool
deriving DecidableEq

/-- Raw order input: every field may be absent. -/
structure RawOrder where
  full_name : Option String
  phone : Option String
  email : Option String
  message : Option String
  event_date : Option String
  pickup : Option Bool
  delivery : Option Bool
  budget_eur : Option Rat
  reference_images : Option (List String)
  consent : Option Bool
deriving DecidableEq

/-- An optional field is valid when absent or when its value passes. -/
def optCheck (p : String → Bool) : Option String → Bool
  | none => true
  | some s => p s

/-- Validation of `schemas.Order`: `full_name`, `phone` and `consent` are
required (`consent` has no default); `email`, `event_date`,
`reference_images` and `budget_eur ≥ 0` are checked when present; `pickup`
defaults to true and `delivery` to false. -/
def validateOrder (r : RawOrder) : Option Order :=
  match r.full_name, r.phone, r.consent with
  | some fn, some ph, some cs =>
    if optCheck isEmail r.email && optCheck isIsoDate r.event_date &&
       (match r.budget_eur with
        | none => true
        | some b => decide (0 ≤ b)) &&
       (match r.reference_images with
        | none => true
        | some l => l.all isHttpUrl) then
      some ⟨fn, ph, r.email, r.message, r.event_date, r.pickup.getD true,
            r.delivery.getD false, r.budget_eur, r.reference_images, cs⟩
    else none
  | _, _, _ => none

/-- A validated contact message, mirroring `schemas.Contact`. -/
structure Contact where
  full_name : String
  phone : Option String
  email : Option String
  message : String
  consent : Bool
deriving DecidableEq

/-- Raw contact input: every field may be absent. -/
structure RawContact where
  full_name : Option String
  phone : Option String
  email : Option String
  message : Option String
  consent : Option Bool
deriving DecidableEq

/-- Validation of `schemas.Contact`: `full_name`, `message` and `consent`
required (`consent` has no default); `email` checked when present. -/
def validateContact (r : RawContact) : Option Contact :=
  match r.full_name, r.message, r.consent with
  | some fn, some ms, some cs =>
    if optCheck isEmail r.email then
      some ⟨fn, r.phone, r.email, ms, cs⟩
    else none
  | _, _, _ => none

/-! ### Specification-side constructions (used to state refinement claims) -/

/-- The documents an import of the given valid products adds, ids drawn from
the supply starting at index `n`. -/
def docsFrom (ids : Nat → String) : Nat → List Product → List Doc
  | _, [] => []
  | n, p :: ps => toDoc (ids n) p :: docsFrom ids (n + 1) ps

/-- Plain concatenation of CSV records. -/
def joinLines : List String → String
  | [] => ""
  | l :: ls => l ++ joinLines ls

/-- Spec-side rendering of one exported product, following the
specification's words: cells in the fixed English column order, embedded
newlines in `care` collapsed to single spaces, missing optional fields as
empty strings. -/
def specExportLine (d : Doc) : String :=
  csvRow [d.name, d.category, showPrice d.price, d.availability,
          d.sku.getD "", collapseNl (d.care.getD ""), d.image.getD ""]

/-- Spec-side export text: the fixed English header row followed by one
record per stored product in store iteration order. -/
def specExportText (docs : List Doc) : String :=
  "name,category,price,availability,sku,care,image\r\n" ++
    joinLines (docs.map specExportLine)

/-! ### Concrete fixtures for witnesses and counterexamples -/

/-- A stored product named "axc" with a well-formed store id. -/
def docAxc : Doc :=
  ⟨"0123456789abcdef01234567", "axc", "trajnica", 5, "na stanju", none, none, none⟩

/-- A second stored product, name "Ana". -/
def docAna : Doc :=
  ⟨"0123456789abcdef01234568", "Ana", "grmovi", 3, "sezonski", none,
   some "vodu\ndaj", none⟩

/-- A connected store holding only `docAxc`. -/
def dbAxc : DBState := ⟨[docAxc], [], []⟩

/-- A connected store holding `docAxc` and `docAna`. -/
def dbTwo : DBState := ⟨[docAxc, docAna], [], []⟩

/-- A validated product value. -/
def prodEx : Product := ⟨"Ruza", "trajnica", 5, "na stanju", none, none, none⟩

/-- Raw product input whose category is outside the enum set. -/
def rawBadCat : RawProduct :=
  ⟨some "Ruza", some "cvijece", some 1, none, none, none, none⟩

/-- A CSV row using localized aliases, without price columns. -/
def rowEx : Row :=
  [("naziv", "Ruza"), ("category", "trajnica"), ("dostupnost", "sezonski")]

/-- The product `rowEx` should construct. -/
def prodRowEx : Product := ⟨"Ruza", "trajnica", 0, "sezonski", none, none, none⟩

/-- Raw order input, valid except that consent is absent. -/
def rawOrderEx : RawOrder :=
  ⟨some "Ana", some "091", none, none, none, none, none, none, none, none⟩

/-- Raw contact input, valid except that consent is absent. -/
def rawContactEx : RawContact :=
  ⟨some "Ana", none, none, some "poruka", none⟩

/-! ## Helper lemmas -/

/-- An empty-string `category` parameter builds the same filter as an absent
one. -/
lemma listPred_cat_empty (qsem : String → String → Bool) (a q : Option String) :
    listPred qsem (some "") a q = listPred qsem none a q := by
  funext d
  rfl

/-- An empty-string `availability` parameter builds the same filter as an
absent one. -/
lemma listPred_avail_empty (qsem : String → String → Bool) (c q : Option String) :
    listPred qsem c (some "") q = listPred qsem c none q := by
  funext d
  rfl

/-- An empty-string `q` parameter builds the same filter as an absent one. -/
lemma listPred_q_empty (qsem : String → String → Bool) (c a : Option String) :
    listPred qsem c a (some "") = listPred qsem c a none := by
  funext d
  rfl

/-- Serialization succeeds on every document with a well-formed id. -/
lemma mapFromMongo_eq_map (l : List Doc) (h : ∀ d ∈ l, ObjectId_is_valid d.id = true) :
    mapFromMongo l = some (l.map outOf) := by
  induction l with
  | nil => rfl
  | cons d ds ih =>
    have hd : ObjectId_is_valid d.id = true := h d (by simp)
    have hds := ih (fun x hx => h x (by simp [hx]))
    simp [mapFromMongo, from_mongo, hd, hds]

/-! ## Claims -/

/-- C2: with the store unavailable, every product, CSV, gallery and post
handler returns the service-unavailable signal and nothing is persisted;
in particular product creation (through the persistence gateway) also
returns this signal without persisting anything. -/
theorem c2_store_unavailable_guard (nid : String) (p : Product) (pid : String)
    (c a q : Option String) (ids : Nat → String) (rows : List Row) :
    list_products none c a q = Except.error HErr.serviceUnavailable ∧
    create_product none nid p = (Except.error HErr.serviceUnavailable, none) ∧
    update_product none pid p = (Except.error HErr.serviceUnavailable, none) ∧
    delete_product none pid = (Except.error HErr.serviceUnavailable, none) ∧
    import_products_csv ids none rows = (Except.error HErr.serviceUnavailable, none) ∧
    export_products_csv none = Except.error HErr.serviceUnavailable ∧
    list_gallery none = Except.error HErr.serviceUnavailable ∧
    list_posts none = Except.error HErr.serviceUnavailable :=
  ⟨rfl, rfl, rfl, rfl, rfl, rfl, rfl, rfl⟩

/-- C10: a filter parameter supplied as the empty string imposes no
constraint: the listing result is the same as with the parameter omitted,
for any store, matcher and values of the other parameters. -/
theorem c10_empty_string_filter_no_constraint (qsem : String → String → Bool)
    (db : Option DBState) (c a q : Option String) :
    listProductsGen qsem db (some "") a q = listProductsGen qsem db none a q ∧
    listProductsGen qsem db c (some "") q = listProductsGen qsem db c none q ∧
    listProductsGen qsem db c a (some "") = listProductsGen qsem db c a none := by
  refine ⟨?_, ?_, ?_⟩
  · cases db with
    | none => rfl
    | some s => simp only [listProductsGen, listPred_cat_empty]
  · cases db with
    | none => rfl
    | some s => simp only [listProductsGen, listPred_avail_empty]
  · cases db with
    | none => rfl
    | some s => simp only [listProductsGen, listPred_q_empty]

/-- C7: an `Order` or `Contact` input with the consent field absent fails
validation, whatever the other fields hold; consent has no default. -/
theorem c7_consent_required (ro : RawOrder) (rc : RawContact) :
    (ro.consent = none → validateOrder ro = none) ∧
    (rc.consent = none → validateContact rc = none) := by
  constructor
  · intro h
    cases hf : ro.full_name <;> cases hp : ro.phone <;>
      simp [validateOrder, hf, hp, h]
  · intro h
    cases hf : rc.full_name <;> cases hm : rc.message <;>
      simp [validateContact, hf, hm, h]

/-- Witness for C7 at concrete inputs with consent absent. -/
theorem c7_consent_required_witness :
    validateOrder rawOrderEx = none ∧ validateContact rawContactEx = none :=
  ⟨(c7_consent_required rawOrderEx rawContactEx).1 rfl,
   (c7_consent_required rawOrderEx rawContactEx).2 rfl⟩

/-- C8: an id string that is not a well-formed 24-hex store identifier makes
the update and delete handlers answer bad-request, with the stored data
unchanged and no store operation performed. -/
theorem c8_malformed_id_rejected (s : DBState) (pid : String) (p : Product)
    (h : ObjectId_is_valid pid = false) :
    update_product (some s) pid p = (Except.error HErr.badRequest, some s) ∧
    delete_product (some s) pid = (Except.error HErr.badRequest, some s) := by
  constructor
  · simp [update_product, h]
  · simp [delete_product, h]

/-- Witness for C8 at the malformed id "abc". -/
theorem c8_malformed_id_rejected_witness :
    update_product (some dbAxc) "abc" prodEx = (Except.error HErr.badRequest, some dbAxc) ∧
    delete_product (some dbAxc) "abc" = (Except.error HErr.badRequest, some dbAxc) :=
  c8_malformed_id_rejected dbAxc "abc" prodEx (by decide)

/-- The import loop inserts exactly the documents of the valid rows, in row
order, and counts them. -/
lemma importLoop_spec (ids : Nat → String) (rows : List Row) :
    ∀ (docs : List Doc) (n : Nat),
      importLoop ids rows docs n =
        (n + (rows.filterMap rowToProduct?).length,
         docs ++ docsFrom ids n (rows.filterMap rowToProduct?)) := by
  induction rows with
  | nil =>
    intro docs n
    simp [importLoop, docsFrom]
  | cons r rs ih =>
    intro docs n
    cases hr : rowToProduct? r with
    | none => simp [importLoop, hr, ih, List.filterMap_cons]
    | some p =>
      rw [Prod.ext_iff]
      constructor
      · simp [importLoop, hr, ih, List.filterMap_cons]
        omega
      · simp [importLoop, hr, ih, List.filterMap_cons, docsFrom, List.append_assoc]

/-- `docsFrom` yields one document per valid product. -/
lemma docsFrom_length (ids : Nat → String) :
    ∀ (n : Nat) (ps : List Product), (docsFrom ids n ps).length = ps.length := by
  intro n ps
  induction ps generalizing n with
  | nil => rfl
  | cons p ps ih => simp [docsFrom, ih]

/-- C3: importing any list of data rows returns the count of rows that
construct a valid product, appends exactly those products as new records in
row order, and silently skips every failing row without aborting. -/
theorem c3_csv_import_skips_bad_rows (ids : Nat → String) (s : DBState) (rows : List Row) :
    import_products_csv ids (some s) rows =
      (Except.ok (rows.filterMap rowToProduct?).length,
       some { s with products := s.products ++ docsFrom ids 0 (rows.filterMap rowToProduct?) }) ∧
    (docsFrom ids 0 (rows.filterMap rowToProduct?)).length =
      (rows.filterMap rowToProduct?).length := by
  constructor
  · simp [import_products_csv, importLoop_spec]
  · exact docsFrom_length ids 0 _

/-- The export fold is the header followed by the concatenated records. -/
lemma foldl_csv_append (docs : List Doc) (out : String) :
    docs.foldl (fun o d => o ++ csvRow (exportCells d)) out =
      out ++ joinLines (docs.map specExportLine) := by
  induction docs generalizing out with
  | nil => simp [joinLines]
  | cons d ds ih =>
    rw [List.foldl_cons, ih, String.append_assoc]
    rfl

/-- C6: exporting any stored catalog produces exactly the fixed English
header row followed by one CSV record per stored product in store iteration
order, and the rendered care cell never contains a newline (each embedded
newline was collapsed to a single space); absent optional fields render as
empty strings (built into the record rendering). -/
theorem c6_export_fixed_header_one_row_per_product (s : DBState) :
    export_products_csv (some s) = Except.ok (specExportText s.products) ∧
    ∀ d ∈ s.products, '\n' ∉ (collapseNl (d.care.getD "")).data := by
  constructor
  · simp only [export_products_csv, foldl_csv_append, specExportText]
    rfl
  · intro d _ hmem
    rw [collapseNl] at hmem
    simp only [String.data] at hmem
    rw [List.mem_map] at hmem
    obtain ⟨a, _, ha⟩ := hmem
    by_cases h : a = '\n'
    · rw [if_pos h] at ha
      exact absurd ha (by decide)
    · rw [if_neg h] at ha
      exact h ha

/-- Witness for C6 at a concrete two-product store with an embedded newline
in one care value. -/
theorem c6_export_fixed_header_witness :
    export_products_csv (some dbTwo) = Except.ok (specExportText dbTwo.products) ∧
    '\n' ∉ (collapseNl (docAna.care.getD "")).data :=
  ⟨(c6_export_fixed_header_one_row_per_product dbTwo).1,
   (c6_export_fixed_header_one_row_per_product dbTwo).2 docAna (by decide)⟩

/-- C4: an input whose category lies outside the eight-value enum set (exact
membership) or whose price is negative fails validation, and the creation
endpoint persists nothing for it. -/
theorem c4_invalid_category_or_negative_price (r : RawProduct) (nid : String) (s : DBState)
    (h : (∃ c, r.category = some c ∧ c ∉ categories) ∨ (∃ p, r.price = some p ∧ p < 0)) :
    validateProduct r = none ∧
    createProductEndpoint (some s) nid r = (Except.error HErr.validationError, some s) := by
  have hv : validateProduct r = none := by
    rcases h with ⟨c, hc, hnotin⟩ | ⟨p, hp, hneg⟩
    · cases hn : r.name <;> cases hpr : r.price <;>
        simp [validateProduct, hn, hc, hpr, hnotin]
    · cases hn : r.name <;> cases hcat : r.category <;>
        simp [validateProduct, hn, hcat, hp, not_le.mpr hneg]
  exact ⟨hv, by simp [createProductEndpoint, hv]⟩

/-- Witness for C4 at a concrete input with category "cvijece", which is not
in the enum set. -/
theorem c4_invalid_category_witness :
    validateProduct rawBadCat = none ∧
    createProductEndpoint (some dbAxc) "0123456789abcdef01234569" rawBadCat =
      (Except.error HErr.validationError, some dbAxc) :=
  c4_invalid_category_or_negative_price rawBadCat "0123456789abcdef01234569" dbAxc
    (Or.inl ⟨"cvijece", rfl, by decide⟩)

/-- C9: listing on a connected store always succeeds, returns a permutation
of the documents passing the conjunction (logical AND) of the three
independent filter constraints, sorted by name ascending, and an empty
filtered set yields the empty sequence; this holds for any store regex
matcher. -/
theorem c9_listing_and_of_filters_sorted (qsem : String → String → Bool) (s : DBState)
    (c a q : Option String) (h : ∀ d ∈ s.products, ObjectId_is_valid d.id = true) :
    ∃ outs, listProductsGen qsem (some s) c a q = Except.ok outs ∧
      outs.Perm ((s.products.filter
        (fun d => catMatch c d && availMatch a d && qMatch qsem q d)).map outOf) ∧
      List.Sorted (fun x y : ProductOut => x.name ≤ y.name) outs ∧
      (s.products.filter (fun d => catMatch c d && availMatch a d && qMatch qsem q d) = [] →
        outs = []) := by
  have hfil : s.products.filter (listPred qsem c a q) =
      s.products.filter (fun d => catMatch c d && availMatch a d && qMatch qsem q d) := rfl
  refine ⟨((s.products.filter (listPred qsem c a q)).insertionSort docLe).map outOf,
          ?_, ?_, ?_, ?_⟩
  · have hall : ∀ d ∈ (s.products.filter (listPred qsem c a q)).insertionSort docLe,
        ObjectId_is_valid d.id = true := by
      intro d hd
      exact h d (List.mem_of_mem_filter ((List.mem_insertionSort docLe).mp hd))
    simp [listProductsGen, mapFromMongo_eq_map _ hall]
  · rw [hfil]
    exact (List.perm_insertionSort docLe _).map outOf
  · exact List.Pairwise.map outOf (fun _ _ hab => hab) (List.sorted_insertionSort docLe _)
  · intro he
    have he' : s.products.filter (listPred qsem c a q) = [] := hfil.trans he
    rw [he']
    rfl

/-- Witness for C9 at a concrete store and filter combination. -/
theorem c9_listing_witness :
    ∃ outs, listProductsGen mongoRegexMatchI (some dbTwo) (some "trajnica") none none =
        Except.ok outs ∧
      outs.Perm ((dbTwo.products.filter
        (fun d => catMatch (some "trajnica") d && availMatch none d &&
          qMatch mongoRegexMatchI none d)).map outOf) ∧
      List.Sorted (fun x y : ProductOut => x.name ≤ y.name) outs ∧
      (dbTwo.products.filter (fun d => catMatch (some "trajnica") d && availMatch none d &&
          qMatch mongoRegexMatchI none d) = [] → outs = []) :=
  c9_listing_and_of_filters_sorted mongoRegexMatchI dbTwo (some "trajnica") none none
    (by decide)

/-- A truthy optional string holds a nonempty value. -/
lemma pyTruthy_some (a : Option String) (h : pyTruthy a = true) :
    ∃ v, a = some v ∧ v.isEmpty = false := by
  cases a with
  | none => simp [pyTruthy] at h
  | some v =>
    refine ⟨v, rfl, ?_⟩
    simpa [pyTruthy] using h

/-- A truthy first operand wins the `or`. -/
lemma pyOr_pos (a b : Option String) (h : pyTruthy a = true) : pyOr a b = a := by
  simp [pyOr, h]

/-- A falsy first operand yields the second. -/
lemma pyOr_neg (a b : Option String) (h : pyTruthy a = false) : pyOr a b = b := by
  simp [pyOr, h]

/-- The field content of a successful product validation. -/
lemma validateProduct_fields (r : RawProduct) (p : Product)
    (h : validateProduct r = some p) :
    r.name = some p.name ∧ r.category = some p.category ∧ r.price = some p.price ∧
    p.availability = r.availability.getD "na stanju" ∧
    p.sku = r.sku ∧ p.care = r.care ∧ p.image = r.image := by
  cases hn : r.name with
  | none => simp [validateProduct, hn] at h
  | some n =>
  cases hc : r.category with
  | none => simp [validateProduct, hn, hc] at h
  | some c =>
  cases hp : r.price with
  | none => simp [validateProduct, hn, hc, hp] at h
  | some pr =>
  cases hi : r.image with
  | none =>
    simp only [validateProduct, hn, hc, hp, hi] at h
    split_ifs at h
    injection h with h
    subst h
    simp [hn, hc, hp, hi]
  | some u =>
    simp only [validateProduct, hn, hc, hp, hi] at h
    split_ifs at h
    injection h with h
    subst h
    simp [hn, hc, hp, hi]

/-- The availability value a successful row conversion carries, phrased on
the column lookups. -/
lemma availOf_match (r : Row) (p : Product)
    (hav : p.availability =
      match pyOr (rowGet r "availability") (rowGet r "dostupnost") with
      | none => "na stanju"
      | some s => if s.isEmpty = true then "na stanju" else s) :
    (match pyOr (rowGet r "availability") (rowGet r "dostupnost") with
     | none => p.availability = "na stanju"
     | some s => if s.isEmpty = true then p.availability = "na stanju"
                 else p.availability = s) := by
  cases hav' : pyOr (rowGet r "availability") (rowGet r "dostupnost") with
  | none =>
    rw [hav'] at hav
    exact hav
  | some t =>
    rw [hav'] at hav
    have hav2 : p.availability = if t.isEmpty = true then "na stanju" else t := hav
    show if t.isEmpty = true then p.availability = "na stanju" else p.availability = t
    by_cases hte : t.isEmpty
    · rw [if_pos hte]
      rw [if_pos hte] at hav2
      exact hav2
    · rw [if_neg hte]
      rw [if_neg hte] at hav2
      exact hav2

/-- The field content of a successful CSV row conversion, in terms of the
row's column lookups. -/
lemma rowToProduct_fields (r : Row) (p : Product) (h : rowToProduct? r = some p) :
    (match pyOr (rowGet r "price") (rowGet r "cijena") with
     | none => p.price = 0
     | some s => if s.isEmpty then p.price = 0 else parseDec s = some p.price) ∧
    pyOr (rowGet r "name") (rowGet r "naziv") = some p.name ∧
    pyOr (rowGet r "category") (rowGet r "kategorija") = some p.category ∧
    p.sku = rowGet r "sku" ∧
    p.care = pyOr (rowGet r "care") (rowGet r "njega") ∧
    p.image = pyOr (rowGet r "image") (rowGet r "slika") ∧
    (match pyOr (rowGet r "availability") (rowGet r "dostupnost") with
     | none => p.availability = "na stanju"
     | some s => if s.isEmpty then p.availability = "na stanju"
                 else p.availability = s) := by
  rw [rowToProduct?] at h
  cases hps : pyOr (rowGet r "price") (rowGet r "cijena") with
  | none =>
    rw [hps] at h
    simp only at h
    obtain ⟨hna, hca, hpr, hav, hsk, hcr, him⟩ := validateProduct_fields _ _ h
    simp only at hna hca hpr hav hsk hcr him
    refine ⟨?_, hna, hca, hsk, hcr, him, availOf_match r p hav⟩
    show p.price = 0
    exact (Option.some_injective _ hpr).symm
  | some s =>
    rw [hps] at h
    simp only at h
    by_cases hse : s.isEmpty
    · rw [if_pos hse] at h
      simp only at h
      obtain ⟨hna, hca, hpr, hav, hsk, hcr, him⟩ := validateProduct_fields _ _ h
      simp only at hna hca hpr hav hsk hcr him
      refine ⟨?_, hna, hca, hsk, hcr, him, availOf_match r p hav⟩
      show if s.isEmpty = true then p.price = 0 else parseDec s = some p.price
      rw [if_pos hse]
      exact (Option.some_injective _ hpr).symm
    · rw [if_neg hse] at h
      cases hpd : parseDec s with
      | none =>
        rw [hpd] at h
        simp at h
      | some v =>
        rw [hpd] at h
        simp only at h
        obtain ⟨hna, hca, hpr, hav, hsk, hcr, him⟩ := validateProduct_fields _ _ h
        simp only at hna hca hpr hav hsk hcr him
        refine ⟨?_, hna, hca, hsk, hcr, him, availOf_match r p hav⟩
        show if s.isEmpty = true then p.price = 0 else parseDec s = some p.price
        rw [if_neg hse, hpd]
        exact hpr

/-- C5: the importer resolves every semantic field by checking the primary
English column first and the localized alias only when the primary is
falsy (`name`/`naziv`, `category`/`kategorija`, `price`/`cijena`,
`availability`/`dostupnost`, `care`/`njega`, `image`/`slika`; `sku` has no
alias); a row with both price columns missing gets price 0, and a row with
both availability columns missing gets availability "na stanju". -/
theorem c5_alias_resolution_and_defaults (r : Row) (p : Product)
    (h : rowToProduct? r = some p) :
    (rowGet r "price" = none → rowGet r "cijena" = none → p.price = 0) ∧
    (rowGet r "availability" = none → rowGet r "dostupnost" = none →
      p.availability = "na stanju") ∧
    (pyTruthy (rowGet r "name") = true → rowGet r "name" = some p.name) ∧
    (pyTruthy (rowGet r "name") = false → rowGet r "naziv" = some p.name) ∧
    (pyTruthy (rowGet r "category") = true → rowGet r "category" = some p.category) ∧
    (pyTruthy (rowGet r "category") = false → rowGet r "kategorija" = some p.category) ∧
    (pyTruthy (rowGet r "price") = true →
      ∃ v, rowGet r "price" = some v ∧ parseDec v = some p.price) ∧
    (pyTruthy (rowGet r "price") = false → pyTruthy (rowGet r "cijena") = true →
      ∃ v, rowGet r "cijena" = some v ∧ parseDec v = some p.price) ∧
    (pyTruthy (rowGet r "availability") = true →
      rowGet r "availability" = some p.availability) ∧
    (pyTruthy (rowGet r "availability") = false →
      pyTruthy (rowGet r "dostupnost") = true →
      rowGet r "dostupnost" = some p.availability) ∧
    (pyTruthy (rowGet r "care") = true → rowGet r "care" = p.care) ∧
    (pyTruthy (rowGet r "care") = false → p.care = rowGet r "njega") ∧
    (pyTruthy (rowGet r "image") = true → rowGet r "image" = p.image) ∧
    (pyTruthy (rowGet r "image") = false → p.image = rowGet r "slika") ∧
    p.sku = rowGet r "sku" := by
  obtain ⟨hpr, hna, hca, hsk, hcr, him, hav⟩ := rowToProduct_fields r p h
  refine ⟨?_, ?_, ?_, ?_, ?_, ?_, ?_, ?_, ?_, ?_, ?_, ?_, ?_, ?_, hsk⟩
  · intro h1 h2
    rw [pyOr_neg _ _ (by rw [h1] ; rfl), h2] at hpr
    exact hpr
  · intro h1 h2
    rw [pyOr_neg _ _ (by rw [h1] ; rfl), h2] at hav
    exact hav
  · intro h1
    rw [pyOr_pos _ _ h1] at hna
    exact hna
  · intro h1
    rw [pyOr_neg _ _ h1] at hna
    exact hna
  · intro h1
    rw [pyOr_pos _ _ h1] at hca
    exact hca
  · intro h1
    rw [pyOr_neg _ _ h1] at hca
    exact hca
  · intro h1
    obtain ⟨v, hv, hve⟩ := pyTruthy_some _ h1
    rw [pyOr_pos _ _ h1, hv] at hpr
    have hpr2 : if v.isEmpty = true then p.price = 0 else parseDec v = some p.price := hpr
    simp only [hve, Bool.false_eq_true, if_false] at hpr2
    exact ⟨v, hv, hpr2⟩
  · intro h1 h2
    obtain ⟨v, hv, hve⟩ := pyTruthy_some _ h2
    rw [pyOr_neg _ _ h1, hv] at hpr
    have hpr2 : if v.isEmpty = true then p.price = 0 else parseDec v = some p.price := hpr
    simp only [hve, Bool.false_eq_true, if_false] at hpr2
    exact ⟨v, hv, hpr2⟩
  · intro h1
    obtain ⟨v, hv, hve⟩ := pyTruthy_some _ h1
    rw [pyOr_pos _ _ h1, hv] at hav
    have hav2 : if v.isEmpty = true then p.availability = "na stanju"
        else p.availability = v := hav
    simp only [hve, Bool.false_eq_true, if_false] at hav2
    rw [hv, hav2]
  · intro h1 h2
    obtain ⟨v, hv, hve⟩ := pyTruthy_some _ h2
    rw [pyOr_neg _ _ h1, hv] at hav
    have hav2 : if v.isEmpty = true then p.availability = "na stanju"
        else p.availability = v := hav
    simp only [hve, Bool.false_eq_true, if_false] at hav2
    rw [hv, hav2]
  · intro h1
    rw [pyOr_pos _ _ h1] at hcr
    exact hcr.symm
  · intro h1
    rw [pyOr_neg _ _ h1] at hcr
    exact hcr
  · intro h1
    rw [pyOr_pos _ _ h1] at him
    exact him.symm
  · intro h1
    rw [pyOr_neg _ _ h1] at him
    exact him

/-- Witness for C5 at a concrete row using the aliases `naziv` and
`dostupnost`, with both price columns absent. -/
theorem c5_alias_resolution_witness :
    prodRowEx.price = 0 ∧ rowGet rowEx "naziv" = some prodRowEx.name ∧
    rowGet rowEx "dostupnost" = some prodRowEx.availability := by
  obtain ⟨h1, _, _, h4, _, _, _, _, _, h10, _⟩ :=
    c5_alias_resolution_and_defaults rowEx prodRowEx (by decide)
  exact ⟨h1 rfl rfl, h4 rfl, h10 rfl rfl⟩

/-- Character equality tests commute. -/
lemma charBeqComm (a b : Char) : (a == b) = (b == a) := by
  by_cases h : a = b
  · rw [h]
  · have h1 : (a == b) = false := by simp [h]
    have h2 : (b == a) = false := by simp [Ne.symm h]
    rw [h1, h2]

/-- A literal-only pattern matches at the start exactly when it is a
case-folded prefix. -/
lemma matchHere_map_lit (l : List Char) : ∀ s : List Char,
    matchHere (l.map RTok.lit) s = isPrefixB (l.map Char.toLower) (s.map Char.toLower) := by
  induction l with
  | nil =>
    intro s
    cases s <;> rfl
  | cons a as ih =>
    intro s
    cases s with
    | nil => rfl
    | cons c cs =>
      simp only [List.map_cons, matchHere, isPrefixB, ih, charBeqComm]

/-- A literal-only pattern searches exactly as a case-folded substring
test. -/
lemma rsearch_map_lit (l : List Char) : ∀ s : List Char,
    rsearch (l.map RTok.lit) s = isSubB (l.map Char.toLower) (s.map Char.toLower) := by
  intro s
  induction s with
  | nil => cases l <;> rfl
  | cons c cs ih =>
    show (matchHere (l.map RTok.lit) (c :: cs) || rsearch (l.map RTok.lit) cs) = _
    rw [matchHere_map_lit, ih]
    rfl

/-- On metacharacter-free patterns the store's caseless regex search
coincides with the case-insensitive substring test. -/
lemma mongo_literal_eq_substrCI (q s : String) (h : ∀ c ∈ q.data, c ∉ regexMetaChars) :
    mongoRegexMatchI q s = substrCI q s := by
  have hmap : q.data.map rtok = q.data.map RTok.lit := by
    apply List.map_congr_left
    intro a ha
    have hdot : a ≠ '.' := by
      intro hd
      exact h a ha (by rw [hd]; decide)
    simp [rtok, hdot]
  rw [mongoRegexMatchI, hmap, rsearch_map_lit]
  rfl

/-- Counterexample to C1 as stated: the store treats `q` as a regex pattern,
not a literal substring.  With the single stored product named "axc" the
query `q = "a.c"` returns that product, although "a.c" is not a substring of
"axc" under case-insensitive comparison. -/
theorem c1_counterexample_dot_matches :
    list_products (some dbAxc) none none (some "a.c") = Except.ok [outOf docAxc] ∧
    substrCI "a.c" "axc" = false ∧
    docAxc.name = "axc" :=
  ⟨rfl, rfl, rfl⟩

/-- C1 (amended): `q` is interpreted as a case-insensitive regex pattern;
when `q` is nonempty and contains no regex metacharacter, the listing
returns exactly the records whose name contains `q` as a substring,
compared case-insensitively. -/
theorem c1_amended_literal_q_is_ci_substring (s : DBState) (q : String)
    (hq : q ≠ "") (hmeta : ∀ c ∈ q.data, c ∉ regexMetaChars)
    (hids : ∀ d ∈ s.products, ObjectId_is_valid d.id = true) :
    ∃ outs, list_products (some s) none none (some q) = Except.ok outs ∧
      outs.Perm ((s.products.filter (fun d => substrCI q d.name)).map outOf) := by
  have hqe : q.isEmpty = false := by
    rw [Bool.eq_false_iff]
    intro hc
    exact hq ((String.isEmpty_iff q).mp hc)
  have hpred : ∀ d ∈ s.products,
      listPred mongoRegexMatchI none none (some q) d = substrCI q d.name := by
    intro d _
    simp [listPred, catMatch, availMatch, qMatch, hqe,
      mongo_literal_eq_substrCI q d.name hmeta]
  have hfil : s.products.filter (listPred mongoRegexMatchI none none (some q)) =
      s.products.filter (fun d => substrCI q d.name) := List.filter_congr hpred
  refine ⟨((s.products.filter (fun d => substrCI q d.name)).insertionSort docLe).map outOf,
          ?_, ?_⟩
  · have hall : ∀ d ∈ (s.products.filter (fun d => substrCI q d.name)).insertionSort docLe,
        ObjectId_is_valid d.id = true := by
      intro d hd
      exact hids d (List.mem_of_mem_filter ((List.mem_insertionSort docLe).mp hd))
    simp [list_products, listProductsGen, hfil, mapFromMongo_eq_map _ hall]
  · exact (List.perm_insertionSort docLe _).map outOf

/-- Witness for the amended C1 at a concrete metacharacter-free query. -/
theorem c1_amended_literal_q_witness :
    ∃ outs, list_products (some dbTwo) none none (some "an") = Except.ok outs ∧
      outs.Perm ((dbTwo.products.filter (fun d => substrCI "an" d.name)).map outOf) :=
  c1_amended_literal_q_is_ci_substring dbTwo "an" (by decide) (by decide) (by decide)

end Mimoza
